import Mathlib

/-! The reconciliation core of the dark controller.

A shallow embedding of `internal/controller.go`: the event handlers that put
tokens on the work queue (`enqueueDashboard`, `enqueueDeletion`, the update
handler of `NewController`) and the worker step that takes one token off the
queue (`processNextWorkItem`, `syncHandler`, `updateDashboardStatus`,
`deletionHandler`).

The controller is stateful only through its collaborators (work queue, lister,
dashboard creator, status client, event recorder, logger).  Every call made to
a collaborator is recorded, in program order, in a trace of `Effect`s; the
answers of the collaborators that the code inspects are supplied by a
`Collaborators` record.  A Go run-time panic is an explicit `Outcome`.
-/

namespace Dark

/-! ## Strings and the library functions the controller calls -/

/-- A Go string, as the sequence of its characters.  The only characters the
controller ever inspects (the separators and the literal tag) are ASCII. -/
abbrev Str := List Char

/-- Go `strings.HasPrefix(s, prefix)`: `s` begins with `prefix`. -/
def HasPrefix (s pre : Str) : Bool :=
  pre.isPrefixOf s

/-- Go `strings.Split(s, sep)` for a separator of one character, the only way
the controller and `cache.SplitMetaNamespaceKey` call it: the pieces of `s`
between the occurrences of `sep`, one more piece than there are occurrences. -/
def Split : Str → Char → List Str
  | [], _ => [[]]
  | c :: cs, sep =>
    if c = sep then [] :: Split cs sep
    else
      match Split cs sep with
      | [] => [[c]]
      | p :: ps => (c :: p) :: ps

/-- The client-go function `cache.SplitMetaNamespaceKey`: split on the slash;
one piece is a name without namespace, two pieces are namespace and name, any
other number of pieces is an error (`none`; the controller never reads the
text of that error). -/
def SplitMetaNamespaceKey (key : Str) : Option (Str × Str) :=
  match Split key '/' with
  | [name] => some ([], name)
  | [ns, name] => some (ns, name)
  | _ => none

/-! ## Data model -/

/-- A Go `error` value: the text `Error()` returns, and whether
`errors.IsNotFound` holds of it. -/
structure GoError where
  text : Str
  notFound : Bool
  deriving DecidableEq, Repr

/-- Modelled from the spec: the status block of a GrafanaDashboard
(`internal/pkg/apis/controller/v1`, not among the sources): a status and a
human-readable message. -/
structure DashboardStatus where
  Status : Str
  Message : Str
  deriving DecidableEq, Repr

/-- Modelled from the spec: the GrafanaDashboard resource type of
`internal/pkg/apis/controller/v1` is not among the sources; these are the
fields `controller.go` reads or writes (`Spec.Raw` is a byte slice). -/
structure GrafanaDashboard where
  Namespace : Str
  Name : Str
  ResourceVersion : Str
  Folder : Str
  Raw : List Nat
  Status : DashboardStatus
  deriving DecidableEq, Repr

/-- The `interface{}` payload an informer hands to an event handler. -/
inductive Object
  | dashboard (d : GrafanaDashboard)
  | explicitKey (key : Str)
  | other (accessorErr : Str)
  deriving DecidableEq, Repr

/-- The `interface{}` item that `workqueue.Get` returns: a string, or a value
of another type (carried by its `%#v` rendering). -/
inductive QueueItem
  | str (key : Str)
  | other (goSyntax : Str)
  deriving DecidableEq, Repr

/-- One call made to a collaborator. -/
inductive Effect
  | add (item : QueueItem)
  | addRateLimited (item : QueueItem)
  | forget (item : QueueItem)
  | done (item : QueueItem)
  | listerGet (ns name : Str)
  | fromRawSpec (folderName uid : Str) (rawJSON : List Nat)
  | delete (uid : Str)
  | updateStatus (ns : Str) (dashboard : GrafanaDashboard)
  | event (object : Option GrafanaDashboard) (eventtype reason message : Str)
  | handleError (text : Str)
  | log (level msg : Str) (fields : List (Str × Str))
  deriving DecidableEq, Repr

/-- The answers of the collaborators that the controller inspects. -/
structure Collaborators where
  /-- The call `dashboardsLister.GrafanaDashboards(namespace).Get(name)`. -/
  listerGet : Str → Str → Except GoError GrafanaDashboard
  /-- The call `dashboardCreator.FromRawSpec(folderName, uid, rawJSON)`. -/
  FromRawSpec : Str → Str → List Nat → Option GoError
  /-- The call `dashboardCreator.Delete(uid)`. -/
  Delete : Str → Option GoError
  /-- The call `GrafanaDashboards(namespace).UpdateStatus(ctx, dashboard, opts)`. -/
  UpdateStatus : Str → GrafanaDashboard → Option GoError
  /-- Whether `recorder.Event` panics when it is handed a nil dashboard, as it
  is on the not-found path of `syncHandler`: the recorder that `NewController`
  builds dereferences the object, a recorder that only formats the message
  does not. -/
  EventPanicsOnNil : Bool

/-- A Go run-time panic. -/
inductive Panic
  | indexOutOfRange (index length : Nat)
  | typeAssertion
  | nilDereference
  deriving DecidableEq, Repr

/-- How a call ends: it returns a value, or it panics. -/
inductive Outcome (α : Type)
  | returned (value : α)
  | panicked (p : Panic)
  deriving DecidableEq, Repr

/-- A finished call: the collaborator calls it made, in order, and how it ended. -/
structure Run (α : Type) where
  trace : List Effect
  outcome : Outcome α
  deriving DecidableEq, Repr

/-! ## Constants of `controller.go` and of `k8s.io/api/core/v1` -/

def SuccessSynced : Str := "Synced".toList

def WarningNotSynced : Str := "Not synced".toList

def MessageResourceSynced : Str := "GrafanaDashboard synced successfully".toList

def EventTypeNormal : Str := "Normal".toList

def EventTypeWarning : Str := "Warning".toList

/-! ## Event handlers -/

/-- The client-go function `cache.MetaNamespaceKeyFunc`: an explicit key is
returned as it is; an object with metadata gives `namespace/name`, or `name`
alone when the namespace is empty; any other object is an error. -/
def MetaNamespaceKeyFunc (obj : Object) : Except Str Str :=
  match obj with
  | .explicitKey key => .ok key
  | .other accessorErr => .error ("object has no meta: ".toList ++ accessorErr)
  | .dashboard d =>
    if d.Namespace.length > 0 then .ok (d.Namespace ++ "/".toList ++ d.Name)
    else .ok d.Name

/-- The method `Controller.enqueueDashboard`. -/
def enqueueDashboard (obj : Object) : Run Unit :=
  match MetaNamespaceKeyFunc obj with
  | .error err => ⟨[Effect.handleError err], .returned ()⟩
  | .ok key => ⟨[Effect.add (.str key)], .returned ()⟩

/-- The method `Controller.enqueueDeletion`. -/
def enqueueDeletion (obj : Object) : Run Unit :=
  match obj with
  | .dashboard dashboard =>
    ⟨[Effect.add (.str ("deletion:".toList ++ dashboard.Name))], .returned ()⟩
  | _ => ⟨[], .panicked .typeAssertion⟩

/-- The `UpdateFunc` closure registered by `NewController`. -/
def UpdateFunc (old new : Object) : Run Unit :=
  match new with
  | .dashboard newDashboard =>
    match old with
    | .dashboard oldDashboard =>
      if newDashboard.ResourceVersion = oldDashboard.ResourceVersion then
        ⟨[], .returned ()⟩
      else
        enqueueDashboard new
    | _ => ⟨[], .panicked .typeAssertion⟩
  | _ => ⟨[], .panicked .typeAssertion⟩

/-! ## The worker step -/

/-- The method `Controller.updateDashboardStatus`: the status is written on a
copy of the dashboard and sent with `UpdateStatus`; a failure of that call is
only logged. -/
def updateDashboardStatus (c : Collaborators) (dashboard : GrafanaDashboard)
    (err : Option GoError) : List Effect :=
  let dashboardCopy : GrafanaDashboard :=
    match err with
    | none => { dashboard with Status := ⟨"OK".toList, "Synchronized".toList⟩ }
    | some e => { dashboard with Status := ⟨"Error".toList, e.text⟩ }
  match c.UpdateStatus dashboardCopy.Namespace dashboardCopy with
  | none => [Effect.updateStatus dashboardCopy.Namespace dashboardCopy]
  | some e =>
    [Effect.updateStatus dashboardCopy.Namespace dashboardCopy,
     Effect.log "warn".toList "error while updating dashboard status".toList
       [("error".toList, e.text), ("namespace".toList, dashboard.Namespace),
        ("name".toList, dashboard.Name)]]

/-- The method `Controller.deletionHandler`. -/
def deletionHandler (c : Collaborators) (uid : Str) : List Effect :=
  match c.Delete uid with
  | none => [Effect.delete uid]
  | some _ =>
    [Effect.delete uid,
     Effect.handleError
       ("dashboard '".toList ++ uid ++ "' in work queue could not be deleted".toList)]

/-- The method `Controller.syncHandler`: the calls it makes and how it ends: it
returns an error (`none` is Go's `nil`), or it panics.  On the not-found path
the dashboard handed to `recorder.Event` is nil. -/
def syncHandler (c : Collaborators) (key : Str) : Run (Option GoError) :=
  match SplitMetaNamespaceKey key with
  | none => ⟨[Effect.handleError ("invalid resource key: ".toList ++ key)], .returned none⟩
  | some (ns, name) =>
    match c.listerGet ns name with
    | .error err =>
      if err.notFound then
        ⟨[Effect.listerGet ns name,
          Effect.handleError
            ("dashboard '".toList ++ key ++ "' in work queue no longer exists".toList),
          Effect.event none EventTypeWarning WarningNotSynced
            ("dashboard '".toList ++ key ++ "' in work queue no longer exists".toList)],
         if c.EventPanicsOnNil then .panicked .nilDereference else .returned none⟩
      else
        ⟨[Effect.listerGet ns name], .returned (some err)⟩
    | .ok dashboard =>
      match c.FromRawSpec dashboard.Folder dashboard.Name dashboard.Raw with
      | some err =>
        ⟨[Effect.listerGet ns name,
          Effect.fromRawSpec dashboard.Folder dashboard.Name dashboard.Raw,
          Effect.handleError
            ("could not create '".toList ++ dashboard.Name
              ++ "' dashboard from spec: ".toList ++ err.text),
          Effect.event (some dashboard) EventTypeWarning WarningNotSynced
            ("could not create dashboard from spec: ".toList ++ err.text)]
          ++ updateDashboardStatus c dashboard (some err)
          ++ [Effect.log "warn".toList "error while updating dashboard".toList
                [("error".toList, err.text), ("namespace".toList, dashboard.Namespace),
                 ("name".toList, dashboard.Name)]],
         .returned none⟩
      | none =>
        ⟨[Effect.listerGet ns name,
          Effect.fromRawSpec dashboard.Folder dashboard.Name dashboard.Raw,
          Effect.event (some dashboard) EventTypeNormal SuccessSynced MessageResourceSynced]
          ++ updateDashboardStatus c dashboard none,
         .returned none⟩

/-- The method `Controller.processNextWorkItem`, given what `workqueue.Get`
returned (`obj`, `shutdown`).  `Done` is deferred in the inner function, so it
runs when that function returns and also when it panics; the error the inner
function returns goes to `HandleError` afterwards. -/
def processNextWorkItem (c : Collaborators) (obj : QueueItem) (shutdown : Bool) : Run Bool :=
  if shutdown then ⟨[], .returned false⟩
  else
    match obj with
    | .other goSyntax =>
      ⟨[Effect.forget obj,
        Effect.handleError ("expected string in workqueue but got ".toList ++ goSyntax),
        Effect.done obj],
       .returned true⟩
    | .str key =>
      if HasPrefix key "deletion".toList then
        let parts := Split key ':'
        match parts[1]? with
        | none => ⟨[Effect.done obj], .panicked (.indexOutOfRange 1 parts.length)⟩
        | some uid =>
          ⟨deletionHandler c uid
            ++ [Effect.log "info".toList "successfully deleted dashboard".toList
                  [("key".toList, key)],
                Effect.forget obj, Effect.done obj],
           .returned true⟩
      else
        match syncHandler c key with
        | ⟨trace, .panicked p⟩ => ⟨trace ++ [Effect.done obj], .panicked p⟩
        | ⟨trace, .returned (some err)⟩ =>
          ⟨trace
            ++ [Effect.addRateLimited (.str key), Effect.done obj,
                Effect.handleError
                  ("error syncing '".toList ++ key ++ "': ".toList ++ err.text
                    ++ ", requeuing".toList)],
           .returned true⟩
        | ⟨trace, .returned none⟩ =>
          ⟨trace
            ++ [Effect.log "info".toList "Successfully synced dashboard".toList
                  [("key".toList, key)],
                Effect.forget obj, Effect.done obj],
           .returned true⟩

/-- The method `Controller.runWorker` with the queue replaced by the list of
answers `workqueue.Get` gives: it calls `processNextWorkItem` until that
returns false (or panics, or the answers are used up). -/
def runWorker (c : Collaborators) : List (QueueItem × Bool) → List Effect
  | [] => []
  | (obj, shutdown) :: rest =>
    let r := processNextWorkItem c obj shutdown
    match r.outcome with
    | .returned true => r.trace ++ runWorker c rest
    | _ => r.trace

/-! ## Observations on traces and concrete collaborators for the examples -/

/-- The effect is a call of `dashboardCreator.Delete`. -/
def Effect.isDelete : Effect → Bool
  | .delete _ => true
  | _ => false

/-- The effect is a call of `dashboardCreator.FromRawSpec`. -/
def Effect.isFromRawSpec : Effect → Bool
  | .fromRawSpec _ _ _ => true
  | _ => false

/-- The effect is a call of `UpdateStatus`. -/
def Effect.isUpdateStatus : Effect → Bool
  | .updateStatus _ _ => true
  | _ => false

/-- The effect is a call of `recorder.Event`. -/
def Effect.isEvent : Effect → Bool
  | .event _ _ _ _ => true
  | _ => false

/-- The effect is a cache lookup through the lister. -/
def Effect.isListerGet : Effect → Bool
  | .listerGet _ _ => true
  | _ => false

/-- The effect is a call of `workqueue.AddRateLimited`. -/
def Effect.isAddRateLimited : Effect → Bool
  | .addRateLimited _ => true
  | _ => false

/-- The effect is a call of `workqueue.Add`. -/
def Effect.isAdd : Effect → Bool
  | .add _ => true
  | _ => false

/-- The effect is a call of `workqueue.Forget`. -/
def Effect.isForget : Effect → Bool
  | .forget _ => true
  | _ => false

/-- The effect is a call of the logger. -/
def Effect.isLog : Effect → Bool
  | .log _ _ _ => true
  | _ => false

/-- The effect is a call of `workqueue.Done`. -/
def Effect.isDone : Effect → Bool
  | .done _ => true
  | _ => false

/-- A dashboard with the given namespace and name and nothing else set. -/
def bareDashboard (ns name : Str) : GrafanaDashboard :=
  { Namespace := ns, Name := name, ResourceVersion := [], Folder := [], Raw := [],
    Status := ⟨[], []⟩ }

/-- Collaborators whose cache is empty (every lookup is not-found) and whose
other calls all succeed. -/
def emptyCache : Collaborators :=
  { listerGet := fun _ _ => .error ⟨"not found".toList, true⟩
    FromRawSpec := fun _ _ _ => none
    Delete := fun _ => none
    UpdateStatus := fun _ _ => none
    EventPanicsOnNil := true }

/-- Collaborators whose cache lookup fails with an error that is not a
not-found error. -/
def brokenCache : Collaborators :=
  { listerGet := fun _ _ => .error ⟨"timeout".toList, false⟩
    FromRawSpec := fun _ _ _ => none
    Delete := fun _ => none
    UpdateStatus := fun _ _ => none
    EventPanicsOnNil := true }

/-- The dashboard of the end-to-end scenarios: `dash1` in namespace `default`,
folder `folder1`. -/
def dash1 : GrafanaDashboard :=
  { Namespace := "default".toList, Name := "dash1".toList, ResourceVersion := "1".toList,
    Folder := "folder1".toList, Raw := [123, 125], Status := ⟨[], []⟩ }

/-- Collaborators of the end-to-end scenarios: the cache holds `dash1`, and
`FromRawSpec` and `Delete` give the stated answer. -/
def scenario (creatorAnswer : Option GoError) : Collaborators :=
  { listerGet := fun ns name =>
      if ns = "default".toList ∧ name = "dash1".toList then .ok dash1
      else .error ⟨"not found".toList, true⟩
    FromRawSpec := fun _ _ _ => creatorAnswer
    Delete := fun _ => creatorAnswer
    UpdateStatus := fun _ _ => none
    EventPanicsOnNil := true }

/-- The dashboard `a` of the namespace `deletion`, in folder `folder1`. -/
def dashInDeletionNamespace : GrafanaDashboard :=
  { Namespace := "deletion".toList, Name := "a".toList, ResourceVersion := "1".toList,
    Folder := "folder1".toList, Raw := [123, 125], Status := ⟨[], []⟩ }

/-- Collaborators whose cache holds `dashInDeletionNamespace`, and whose
`FromRawSpec` and `Delete` give the stated answer. -/
def deletionNamespace (creatorAnswer : Option GoError) : Collaborators :=
  { listerGet := fun ns name =>
      if ns = "deletion".toList ∧ name = "a".toList then .ok dashInDeletionNamespace
      else .error ⟨"not found".toList, true⟩
    FromRawSpec := fun _ _ _ => creatorAnswer
    Delete := fun _ => creatorAnswer
    UpdateStatus := fun _ _ => none
    EventPanicsOnNil := true }

/-! ## Lemmas on the string functions -/

theorem Split_ne_nil (s : Str) (sep : Char) : Split s sep ≠ [] := by
  induction s with
  | nil => simp [Split]
  | cons c cs ih =>
    unfold Split
    split
    · simp
    · split <;> simp

theorem Split_of_not_mem (s : Str) (sep : Char) (h : sep ∉ s) : Split s sep = [s] := by
  induction s with
  | nil => simp [Split]
  | cons c cs ih =>
    have hc : ¬ c = sep := fun e => h (by simp [e])
    have hcs : sep ∉ cs := fun e => h (by simp [e])
    simp [Split, hc, ih hcs]

theorem Split_append_sep (a b : Str) (sep : Char) (h : sep ∉ a) :
    Split (a ++ sep :: b) sep = a :: Split b sep := by
  induction a with
  | nil => simp [Split]
  | cons c cs ih =>
    have hc : ¬ c = sep := fun e => h (by simp [e])
    have hcs : sep ∉ cs := fun e => h (by simp [e])
    simp [Split, hc, ih hcs]

theorem HasPrefix_iff (s pre : Str) : HasPrefix s pre = true ↔ pre <+: s := by
  unfold HasPrefix
  exact List.isPrefixOf_iff_prefix

theorem HasPrefix_append (pre s : Str) : HasPrefix (pre ++ s) pre = true :=
  (HasPrefix_iff _ _).2 (List.prefix_append pre s)

/-- If `ns ++ c :: name` begins with `p` and `c` does not occur in `p`, then
`ns` already begins with `p`. -/
theorem prefix_of_append_sep (p ns name uid : Str) (c : Char) (hc : c ∉ p)
    (h : ns ++ c :: name = p ++ uid) : p <+: ns := by
  rcases List.append_eq_append_iff.1 h with ⟨a, h1, h2⟩ | ⟨a, h1, _⟩
  · cases a with
    | nil => simp at h1; exact h1 ▸ List.prefix_refl _
    | cons x xs =>
      simp at h2
      exfalso
      apply hc
      rw [h1, ← h2.1]
      simp
  · exact ⟨a, h1.symm⟩

/-- The token `SplitMetaNamespaceKey` receives from `MetaNamespaceKeyFunc` is
decoded to the namespace and name it was built from, when neither contains a
slash. -/
theorem SplitMetaNamespaceKey_roundtrip (ns name : Str) (hns : '/' ∉ ns) (hname : '/' ∉ name) :
    SplitMetaNamespaceKey (if ns.length > 0 then ns ++ "/".toList ++ name else name)
      = some (ns, name) := by
  cases ns with
  | nil => simp [SplitMetaNamespaceKey, Split_of_not_mem name '/' hname]
  | cons x xs =>
    have e : (x :: xs) ++ "/".toList ++ name = (x :: xs) ++ '/' :: name := by simp
    simp only [List.length_cons, gt_iff_lt, Nat.zero_lt_succ, if_true]
    unfold SplitMetaNamespaceKey
    rw [e, Split_append_sep (x :: xs) name '/' hns, Split_of_not_mem name '/' hname]

/-! ## The two token encodings -/

/-- C1, counterexample: a resource without namespace whose name is
`deletion:x` gets from `enqueueDashboard` the very token that
`enqueueDeletion` builds for a deleted resource named `x`. -/
theorem reconcile_token_collides_with_deletion_token :
    (enqueueDashboard (.dashboard (bareDashboard [] "deletion:x".toList))).trace
      = (enqueueDeletion (.dashboard (bareDashboard [] "x".toList))).trace
    ∧ (enqueueDashboard (.dashboard (bareDashboard [] "deletion:x".toList))).trace
      = [Effect.add (.str "deletion:x".toList)] := by
  decide

/-- C1, amended: when the namespace of a resource (or its name, when the
namespace is empty) does not begin with `deletion:`, the token that
`enqueueDashboard` adds for it differs from the token that `enqueueDeletion`
adds for any deleted resource. -/
theorem reconcile_token_ne_deletion_token (d deleted : GrafanaDashboard)
    (h : HasPrefix (if d.Namespace = [] then d.Name else d.Namespace) "deletion:".toList
      = false) :
    (enqueueDashboard (.dashboard d)).trace ≠ (enqueueDeletion (.dashboard deleted)).trace := by
  intro heq
  have hnot : ¬ ("deletion:".toList <+: (if d.Namespace = [] then d.Name else d.Namespace)) := by
    intro hp
    rw [(HasPrefix_iff _ _).2 hp] at h
    exact Bool.noConfusion h
  apply hnot
  rcases d with ⟨ns, name, rv, folder, raw, st⟩
  cases ns with
  | nil =>
    simp [enqueueDashboard, enqueueDeletion, MetaNamespaceKeyFunc] at heq
    simp only [if_true]
    exact ⟨deleted.Name, heq.symm⟩
  | cons x xs =>
    simp [enqueueDashboard, enqueueDeletion, MetaNamespaceKeyFunc] at heq
    simp only [reduceCtorEq, if_false]
    have e : (x :: xs) ++ '/' :: name = "deletion:".toList ++ deleted.Name := by
      simpa using heq
    exact prefix_of_append_sep _ _ _ _ '/' (by decide) e

/-- C1, witness: the amended statement at `dash1` (namespace `default`). -/
theorem reconcile_token_ne_deletion_token_witness :
    HasPrefix (if dash1.Namespace = [] then dash1.Name else dash1.Namespace) "deletion:".toList
      = false
    ∧ (enqueueDashboard (.dashboard dash1)).trace
      ≠ (enqueueDeletion (.dashboard dash1)).trace :=
  ⟨by decide, reconcile_token_ne_deletion_token dash1 dash1 (by decide)⟩

/-- The first piece of a split is the part of the string before the first
separator. -/
theorem Split_head (s : Str) (sep : Char) :
    ∃ rest, Split s sep = s.takeWhile (fun c => decide (c ≠ sep)) :: rest := by
  induction s with
  | nil => exact ⟨[], by simp [Split]⟩
  | cons c cs ih =>
    obtain ⟨rest, hrest⟩ := ih
    by_cases hc : c = sep
    · exact ⟨Split cs sep, by simp [Split, hc]⟩
    · exact ⟨rest, by simp [Split, hc, hrest]⟩

theorem takeWhile_ne_of_not_mem (s : Str) (sep : Char) (h : sep ∉ s) :
    s.takeWhile (fun c => decide (c ≠ sep)) = s := by
  induction s with
  | nil => rfl
  | cons c cs ih =>
    have hc : ¬ c = sep := fun e => h (by simp [e])
    have hcs : sep ∉ cs := fun e => h (by simp [e])
    rw [List.takeWhile_cons, ih hcs]
    simp [hc]

/-- A token built by `enqueueDeletion` starts with `deletion`. -/
theorem HasPrefix_deletion_token (uid : Str) :
    HasPrefix ("deletion:".toList ++ uid) "deletion".toList = true := by
  have e : "deletion:".toList ++ uid = "deletion".toList ++ (':' :: uid) := by
    show _ = _
    rfl
  rw [e]
  exact HasPrefix_append _ _

/-- The element `parts[1]` of a token built by `enqueueDeletion` exists: it is
the identifier up to its first colon. -/
theorem parts_one_deletion_token (uid : Str) :
    (Split ("deletion:".toList ++ uid) ':')[1]?
      = some (uid.takeWhile (fun c => decide (c ≠ ':'))) := by
  have e : "deletion:".toList ++ uid = "deletion".toList ++ (':' :: uid) := by
    show _ = _
    rfl
  obtain ⟨rest, hrest⟩ := Split_head uid ':'
  rw [e, Split_append_sep _ _ ':' (by decide), hrest]
  simp

/-- What `processNextWorkItem` does with a token built by `enqueueDeletion`. -/
theorem processNextWorkItem_deletion_token (c : Collaborators) (uid : Str) :
    processNextWorkItem c (.str ("deletion:".toList ++ uid)) false
      = ⟨deletionHandler c (uid.takeWhile (fun c => decide (c ≠ ':')))
          ++ [Effect.log "info".toList "successfully deleted dashboard".toList
                [("key".toList, "deletion:".toList ++ uid)],
              Effect.forget (.str ("deletion:".toList ++ uid)),
              Effect.done (.str ("deletion:".toList ++ uid))],
         .returned true⟩ := by
  simp only [processNextWorkItem, HasPrefix_deletion_token, parts_one_deletion_token]
  simp

/-! ## The reconcile path -/

/-- A list of logger calls holds no call of another kind. -/
theorem filter_logs_eq_nil (logs : List Effect) (hlogs : ∀ x ∈ logs, x.isLog = true)
    (p : Effect → Bool) (hp : ∀ l m f, p (.log l m f) = false) : logs.filter p = [] := by
  rw [List.filter_eq_nil_iff]
  intro x hx
  have hx2 := hlogs x hx
  cases x <;> simp_all [Effect.isLog]

/-- The method `updateDashboardStatus` makes one `UpdateStatus` call, on a copy
of the dashboard that carries the new status, and otherwise only logs. -/
theorem updateDashboardStatus_shape (c : Collaborators) (d : GrafanaDashboard)
    (err : Option GoError) :
    ∃ logs, (∀ x ∈ logs, x.isLog = true) ∧
      updateDashboardStatus c d err
        = Effect.updateStatus d.Namespace
            (match err with
              | none => { d with Status := ⟨"OK".toList, "Synchronized".toList⟩ }
              | some e => { d with Status := ⟨"Error".toList, e.text⟩ }) :: logs := by
  cases err with
  | none =>
    cases hU : c.UpdateStatus d.Namespace
      { d with Status := ⟨"OK".toList, "Synchronized".toList⟩ } with
    | none => exact ⟨[], by simp, by simp only [updateDashboardStatus, hU]⟩
    | some e2 =>
      exact ⟨[Effect.log "warn".toList "error while updating dashboard status".toList
          [("error".toList, e2.text), ("namespace".toList, d.Namespace),
           ("name".toList, d.Name)]],
        by simp [Effect.isLog], by simp only [updateDashboardStatus, hU]⟩
  | some e =>
    cases hU : c.UpdateStatus d.Namespace { d with Status := ⟨"Error".toList, e.text⟩ } with
    | none => exact ⟨[], by simp, by simp only [updateDashboardStatus, hU]⟩
    | some e2 =>
      exact ⟨[Effect.log "warn".toList "error while updating dashboard status".toList
          [("error".toList, e2.text), ("namespace".toList, d.Namespace),
           ("name".toList, d.Name)]],
        by simp [Effect.isLog], by simp only [updateDashboardStatus, hU]⟩

/-- The whole run of `processNextWorkItem` on a reconcile token whose resource
is in the cache and for which `FromRawSpec` fails. -/
theorem processNextWorkItem_creator_failure (c : Collaborators) (key ns name : Str)
    (dashboard : GrafanaDashboard) (e : GoError)
    (hpre : HasPrefix key "deletion".toList = false)
    (hkey : SplitMetaNamespaceKey key = some (ns, name))
    (hget : c.listerGet ns name = .ok dashboard)
    (hcreate : c.FromRawSpec dashboard.Folder dashboard.Name dashboard.Raw = some e) :
    ∃ logs, (∀ x ∈ logs, x.isLog = true) ∧
      processNextWorkItem c (.str key) false
        = ⟨[Effect.listerGet ns name,
            Effect.fromRawSpec dashboard.Folder dashboard.Name dashboard.Raw,
            Effect.handleError
              ("could not create '".toList ++ dashboard.Name
                ++ "' dashboard from spec: ".toList ++ e.text),
            Effect.event (some dashboard) EventTypeWarning WarningNotSynced
              ("could not create dashboard from spec: ".toList ++ e.text),
            Effect.updateStatus dashboard.Namespace
              { dashboard with Status := ⟨"Error".toList, e.text⟩ }]
            ++ logs
            ++ [Effect.forget (.str key), Effect.done (.str key)],
           .returned true⟩ := by
  obtain ⟨logs, hlogs, hU⟩ := updateDashboardStatus_shape c dashboard (some e)
  refine ⟨logs ++ [Effect.log "warn".toList "error while updating dashboard".toList
      [("error".toList, e.text), ("namespace".toList, dashboard.Namespace),
       ("name".toList, dashboard.Name)],
    Effect.log "info".toList "Successfully synced dashboard".toList [("key".toList, key)]],
    ?_, ?_⟩
  · intro x hx
    rcases List.mem_append.1 hx with h | h
    · exact hlogs x h
    · simp at h
      rcases h with h | h <;> simp [h, Effect.isLog]
  · simp only [processNextWorkItem, hpre, syncHandler, hkey, hget, hcreate, hU,
      Bool.false_eq_true, if_false]
    simp

/-- The whole run of `processNextWorkItem` on a reconcile token whose resource
is in the cache and for which `FromRawSpec` succeeds. -/
theorem processNextWorkItem_creator_success (c : Collaborators) (key ns name : Str)
    (dashboard : GrafanaDashboard)
    (hpre : HasPrefix key "deletion".toList = false)
    (hkey : SplitMetaNamespaceKey key = some (ns, name))
    (hget : c.listerGet ns name = .ok dashboard)
    (hcreate : c.FromRawSpec dashboard.Folder dashboard.Name dashboard.Raw = none) :
    ∃ logs, (∀ x ∈ logs, x.isLog = true) ∧
      processNextWorkItem c (.str key) false
        = ⟨[Effect.listerGet ns name,
            Effect.fromRawSpec dashboard.Folder dashboard.Name dashboard.Raw,
            Effect.event (some dashboard) EventTypeNormal SuccessSynced MessageResourceSynced,
            Effect.updateStatus dashboard.Namespace
              { dashboard with Status := ⟨"OK".toList, "Synchronized".toList⟩ }]
            ++ logs
            ++ [Effect.forget (.str key), Effect.done (.str key)],
           .returned true⟩ := by
  obtain ⟨logs, hlogs, hU⟩ := updateDashboardStatus_shape c dashboard none
  refine ⟨logs ++ [Effect.log "info".toList "Successfully synced dashboard".toList
      [("key".toList, key)]], ?_, ?_⟩
  · intro x hx
    rcases List.mem_append.1 hx with h | h
    · exact hlogs x h
    · simp at h
      simp [h, Effect.isLog]
  · simp only [processNextWorkItem, hpre, syncHandler, hkey, hget, hcreate, hU,
      Bool.false_eq_true, if_false]
    simp

/-- The method `updateDashboardStatus` calls neither the queue, nor the lister,
nor the dashboard creator, nor the event recorder. -/
theorem updateDashboardStatus_calls (c : Collaborators) (d : GrafanaDashboard)
    (err : Option GoError) :
    ∀ x ∈ updateDashboardStatus c d err,
      x.isAddRateLimited = false ∧ x.isAdd = false ∧ x.isForget = false ∧ x.isDone = false
      ∧ x.isDelete = false ∧ x.isListerGet = false ∧ x.isFromRawSpec = false
      ∧ x.isEvent = false := by
  obtain ⟨logs, hlogs, hU⟩ := updateDashboardStatus_shape c d err
  rw [hU]
  intro x hx
  rcases List.mem_cons.1 hx with h | h
  · subst h
    simp [Effect.isAddRateLimited, Effect.isAdd, Effect.isForget, Effect.isDone,
      Effect.isDelete, Effect.isListerGet, Effect.isFromRawSpec, Effect.isEvent]
  · have hx2 := hlogs x h
    cases x <;> simp_all [Effect.isLog, Effect.isAddRateLimited, Effect.isAdd, Effect.isForget,
      Effect.isDone, Effect.isDelete, Effect.isListerGet, Effect.isFromRawSpec, Effect.isEvent]

/-- The method `syncHandler` never calls the queue and never calls `Delete`. -/
theorem syncHandler_calls (c : Collaborators) (key : Str) :
    ∀ x ∈ (syncHandler c key).1,
      x.isAddRateLimited = false ∧ x.isAdd = false ∧ x.isForget = false ∧ x.isDone = false
      ∧ x.isDelete = false := by
  intro x hx
  unfold syncHandler at hx
  cases hkey : SplitMetaNamespaceKey key with
  | none =>
    simp only [hkey] at hx
    simp at hx
    subst hx
    simp [Effect.isAddRateLimited, Effect.isAdd, Effect.isForget, Effect.isDone, Effect.isDelete]
  | some p =>
    obtain ⟨ns, name⟩ := p
    simp only [hkey] at hx
    cases hget : c.listerGet ns name with
    | error err =>
      simp only [hget] at hx
      cases hnf : err.notFound
      · simp [hnf] at hx
        subst hx
        simp [Effect.isAddRateLimited, Effect.isAdd, Effect.isForget, Effect.isDone,
          Effect.isDelete]
      · simp [hnf] at hx
        rcases hx with h | h | h <;> subst h <;>
          simp [Effect.isAddRateLimited, Effect.isAdd, Effect.isForget, Effect.isDone,
            Effect.isDelete]
    | ok dashboard =>
      simp only [hget] at hx
      cases hcreate : c.FromRawSpec dashboard.Folder dashboard.Name dashboard.Raw with
      | none =>
        simp only [hcreate] at hx
        rcases List.mem_append.1 hx with h | h
        · simp at h
          rcases h with h | h | h <;> subst h <;>
            simp [Effect.isAddRateLimited, Effect.isAdd, Effect.isForget, Effect.isDone,
              Effect.isDelete]
        · have := updateDashboardStatus_calls c dashboard none x h
          simp [this]
      | some e =>
        simp only [hcreate] at hx
        rcases List.mem_append.1 hx with h | h
        · rcases List.mem_append.1 h with h | h
          · simp at h
            rcases h with h | h | h | h <;> subst h <;>
              simp [Effect.isAddRateLimited, Effect.isAdd, Effect.isForget, Effect.isDone,
                Effect.isDelete]
          · have := updateDashboardStatus_calls c dashboard (some e) x h
            simp [this]
        · simp at h
          subst h
          simp [Effect.isAddRateLimited, Effect.isAdd, Effect.isForget, Effect.isDone,
            Effect.isDelete]

/-- The method `syncHandler` returns an error exactly when the token is decoded
and the cache lookup fails with an error that is not a not-found error; it
returns that error. -/
theorem syncHandler_error_iff (c : Collaborators) (key : Str) (err : GoError) :
    (syncHandler c key).outcome = .returned (some err) ↔
      ∃ ns name, SplitMetaNamespaceKey key = some (ns, name)
        ∧ c.listerGet ns name = .error err ∧ err.notFound = false := by
  cases hkey : SplitMetaNamespaceKey key with
  | none => simp [syncHandler, hkey]
  | some p =>
    obtain ⟨ns, name⟩ := p
    cases hget : c.listerGet ns name with
    | error e2 =>
      cases hnf : e2.notFound
      · simp only [syncHandler, hkey, hget, hnf, Bool.false_eq_true, if_false,
          Outcome.returned.injEq, Option.some.injEq, Prod.mk.injEq]
        constructor
        · intro h
          subst h
          exact ⟨ns, name, ⟨rfl, rfl⟩, hget, hnf⟩
        · rintro ⟨ns2, name2, ⟨h1, h2⟩, h3, _⟩
          subst h1 h2
          rw [hget] at h3
          exact Except.error.inj h3
      · constructor
        · intro h
          simp only [syncHandler, hkey, hget, hnf, if_true] at h
          cases hp : c.EventPanicsOnNil <;> simp [hp] at h
        · rintro ⟨ns2, name2, h1, h3, h4⟩
          simp only [Option.some.injEq, Prod.mk.injEq] at h1
          obtain ⟨h1, h2⟩ := h1
          subst h1 h2
          rw [hget] at h3
          have := Except.error.inj h3
          subst this
          rw [hnf] at h4
          exact absurd h4 (by simp)
    | ok dashboard =>
      cases hcreate : c.FromRawSpec dashboard.Folder dashboard.Name dashboard.Raw <;>
        simp [syncHandler, hkey, hget, hcreate]

/-- The method `syncHandler` panics exactly when the token is decoded, the
cache lookup answers not-found and the recorder panics on the nil dashboard it
is then handed. -/
theorem syncHandler_panics_iff (c : Collaborators) (key : Str) (p : Panic) :
    (syncHandler c key).outcome = .panicked p ↔
      p = .nilDereference ∧ c.EventPanicsOnNil = true ∧
        ∃ ns name err, SplitMetaNamespaceKey key = some (ns, name)
          ∧ c.listerGet ns name = .error err ∧ err.notFound = true := by
  cases hkey : SplitMetaNamespaceKey key with
  | none => simp [syncHandler, hkey]
  | some q =>
    obtain ⟨ns, name⟩ := q
    cases hget : c.listerGet ns name with
    | error e2 =>
      cases hnf : e2.notFound
      · constructor
        · intro h
          simp [syncHandler, hkey, hget, hnf] at h
        · rintro ⟨_, _, ns2, name2, err, h1, h3, h4⟩
          simp only [Option.some.injEq, Prod.mk.injEq] at h1
          obtain ⟨h1, h2⟩ := h1
          subst h1 h2
          rw [hget] at h3
          have := Except.error.inj h3
          subst this
          rw [hnf] at h4
          exact absurd h4 (by simp)
      · cases hp : c.EventPanicsOnNil
        · simp [syncHandler, hkey, hget, hnf, hp]
        · constructor
          · intro h
            simp only [syncHandler, hkey, hget, hnf, hp, if_true,
              Outcome.panicked.injEq] at h
            exact ⟨h.symm, rfl, ns, name, e2, rfl, hget, hnf⟩
          · rintro ⟨h, _⟩
            simp only [syncHandler, hkey, hget, hnf, hp, if_true, h]
    | ok dashboard =>
      cases hcreate : c.FromRawSpec dashboard.Folder dashboard.Name dashboard.Raw <;>
        simp [syncHandler, hkey, hget, hcreate]

/-- The step `processNextWorkItem` on a string token that does not start with
`deletion`: the calls of `syncHandler`, then the re-queueing when `syncHandler`
returned an error, `Forget` when it returned nil, and only the deferred `Done`
when it panicked. -/
theorem processNextWorkItem_sync (c : Collaborators) (key : Str)
    (hpre : HasPrefix key "deletion".toList = false) :
    processNextWorkItem c (.str key) false
      = (match (syncHandler c key).outcome with
          | .panicked p =>
            ⟨(syncHandler c key).trace ++ [Effect.done (.str key)], .panicked p⟩
          | .returned (some err) =>
            ⟨(syncHandler c key).trace ++
              [Effect.addRateLimited (.str key), Effect.done (.str key),
               Effect.handleError
                 ("error syncing '".toList ++ key ++ "': ".toList ++ err.text
                   ++ ", requeuing".toList)],
             .returned true⟩
          | .returned none =>
            ⟨(syncHandler c key).trace ++
              [Effect.log "info".toList "Successfully synced dashboard".toList
                 [("key".toList, key)],
               Effect.forget (.str key), Effect.done (.str key)],
             .returned true⟩) := by
  simp only [processNextWorkItem, hpre, Bool.false_eq_true, if_false]
  rcases hs : syncHandler c key with ⟨trace, out⟩
  rcases out with (_ | _) | _ <;> rfl

/-- Once the token is decoded, `syncHandler` makes exactly one cache lookup, at
the decoded namespace and name. -/
theorem syncHandler_lookup (c : Collaborators) (key ns name : Str)
    (hkey : SplitMetaNamespaceKey key = some (ns, name)) :
    (syncHandler c key).1.filter Effect.isListerGet = [Effect.listerGet ns name] := by
  have hU : ∀ d err, (updateDashboardStatus c d err).filter Effect.isListerGet = [] := by
    intro d err
    rw [List.filter_eq_nil_iff]
    intro x hx
    simp [(updateDashboardStatus_calls c d err x hx).2.2.2.2.2.1]
  cases hget : c.listerGet ns name with
  | error err =>
    cases hnf : err.notFound <;>
      simp [syncHandler, hkey, hget, hnf, List.filter, Effect.isListerGet]
  | ok dashboard =>
    cases hcreate : c.FromRawSpec dashboard.Folder dashboard.Name dashboard.Raw <;>
      simp [syncHandler, hkey, hget, hcreate, List.filter, List.filter_append, hU,
        Effect.isListerGet]

/-- For a GrafanaDashboard, `enqueueDashboard` adds one token: `namespace/name`,
or `name` alone when the namespace is empty. -/
theorem enqueueDashboard_dashboard (d : GrafanaDashboard) :
    enqueueDashboard (.dashboard d)
      = ⟨[Effect.add (.str (if d.Namespace.length > 0 then d.Namespace ++ "/".toList ++ d.Name
            else d.Name))], .returned ()⟩ := by
  by_cases h : d.Namespace.length > 0
  · simp only [enqueueDashboard, MetaNamespaceKeyFunc, h, if_true]
  · simp only [enqueueDashboard, MetaNamespaceKeyFunc, h, if_false]

/-- C2, counterexample: for the resource without namespace named `a/b`,
`enqueueDashboard` adds the token `a/b`, and `processNextWorkItem` looks up
namespace `a`, name `b` in the cache: the token is not decoded back to the
namespace and name it was built from. -/
theorem reconcile_token_with_slash_not_decoded_back :
    (enqueueDashboard (.dashboard (bareDashboard [] "a/b".toList))).trace
      = [Effect.add (.str "a/b".toList)]
    ∧ SplitMetaNamespaceKey "a/b".toList = some ("a".toList, "b".toList)
    ∧ (processNextWorkItem emptyCache (.str "a/b".toList) false).trace.filter Effect.isListerGet
      = [Effect.listerGet "a".toList "b".toList] := by
  decide

/-- C2, amended: for a namespace and a name without slash, when the token that
`enqueueDashboard` adds for the resource does not start with `deletion`, then
`processNextWorkItem` takes the token as a reconcile token (the cache lookup of
`syncHandler` is made, `Delete` is not called) and decodes it back to exactly
that namespace and name for the lookup. -/
theorem reconcile_token_roundtrip (c : Collaborators) (d : GrafanaDashboard) (key : Str)
    (hadd : (enqueueDashboard (.dashboard d)).trace = [Effect.add (.str key)])
    (hns : '/' ∉ d.Namespace) (hname : '/' ∉ d.Name)
    (hpre : HasPrefix key "deletion".toList = false) :
    SplitMetaNamespaceKey key = some (d.Namespace, d.Name)
    ∧ (processNextWorkItem c (.str key) false).trace.filter Effect.isListerGet
      = [Effect.listerGet d.Namespace d.Name]
    ∧ (processNextWorkItem c (.str key) false).trace.filter Effect.isDelete = [] := by
  have hk : key = if d.Namespace.length > 0 then d.Namespace ++ "/".toList ++ d.Name
      else d.Name := by
    rw [enqueueDashboard_dashboard] at hadd
    simp only [List.cons.injEq, Effect.add.injEq, QueueItem.str.injEq, and_true] at hadd
    exact hadd.symm
  have hkey : SplitMetaNamespaceKey key = some (d.Namespace, d.Name) := by
    rw [hk]
    exact SplitMetaNamespaceKey_roundtrip d.Namespace d.Name hns hname
  refine ⟨hkey, ?_, ?_⟩
  · rw [processNextWorkItem_sync c key hpre]
    have hl := syncHandler_lookup c key _ _ hkey
    rcases ho : (syncHandler c key).outcome with (_ | _) | _ <;>
      simp [List.filter_append, hl, List.filter, Effect.isListerGet]
  · rw [processNextWorkItem_sync c key hpre]
    have h0 : (syncHandler c key).1.filter Effect.isDelete = [] := by
      rw [List.filter_eq_nil_iff]
      intro x hx
      simp [(syncHandler_calls c key x hx).2.2.2.2]
    rcases ho : (syncHandler c key).outcome with (_ | _) | _ <;>
      simp [List.filter_append, h0, List.filter, Effect.isDelete]

/-- C2, witness: the amended statement at `dash1` (namespace `default`, name
`dash1`), whose token is `default/dash1`. -/
theorem reconcile_token_roundtrip_witness :
    (enqueueDashboard (.dashboard dash1)).trace = [Effect.add (.str "default/dash1".toList)]
    ∧ '/' ∉ dash1.Namespace ∧ '/' ∉ dash1.Name
    ∧ HasPrefix "default/dash1".toList "deletion".toList = false
    ∧ SplitMetaNamespaceKey "default/dash1".toList = some (dash1.Namespace, dash1.Name)
    ∧ (processNextWorkItem emptyCache (.str "default/dash1".toList) false).trace.filter
        Effect.isListerGet = [Effect.listerGet dash1.Namespace dash1.Name]
    ∧ (processNextWorkItem emptyCache (.str "default/dash1".toList) false).trace.filter
        Effect.isDelete = [] :=
  ⟨by decide, by decide, by decide, by decide,
    reconcile_token_roundtrip emptyCache dash1 "default/dash1".toList (by decide) (by decide)
      (by decide) (by decide)⟩

/-- The failure path away from the unchecked index: a token that does not
start with `deletion`, that `SplitMetaNamespaceKey` decodes, whose resource is
in the cache and for which `FromRawSpec` fails with error `e`:
`FromRawSpec(Folder, Name, Spec.Raw)` is
called once, one event is recorded and it is a warning, one status update is
attempted, with status `Error` and the text of `e` as message, `Forget` is
called on the token, and the token is not added again (no `AddRateLimited`, no
`Add`), whatever the status update answers. -/
theorem creator_failure_is_reported_and_forgotten (c : Collaborators) (key ns name : Str)
    (dashboard : GrafanaDashboard) (e : GoError)
    (hpre : HasPrefix key "deletion".toList = false)
    (hkey : SplitMetaNamespaceKey key = some (ns, name))
    (hget : c.listerGet ns name = .ok dashboard)
    (hcreate : c.FromRawSpec dashboard.Folder dashboard.Name dashboard.Raw = some e) :
    (processNextWorkItem c (.str key) false).trace.filter Effect.isFromRawSpec
      = [Effect.fromRawSpec dashboard.Folder dashboard.Name dashboard.Raw]
    ∧ (processNextWorkItem c (.str key) false).trace.filter Effect.isEvent
      = [Effect.event (some dashboard) EventTypeWarning WarningNotSynced
          ("could not create dashboard from spec: ".toList ++ e.text)]
    ∧ (processNextWorkItem c (.str key) false).trace.filter Effect.isUpdateStatus
      = [Effect.updateStatus dashboard.Namespace
          { dashboard with Status := ⟨"Error".toList, e.text⟩ }]
    ∧ (processNextWorkItem c (.str key) false).trace.filter Effect.isForget
      = [Effect.forget (.str key)]
    ∧ (processNextWorkItem c (.str key) false).trace.filter Effect.isAddRateLimited = []
    ∧ (processNextWorkItem c (.str key) false).trace.filter Effect.isAdd = []
    ∧ (processNextWorkItem c (.str key) false).outcome = .returned true := by
  obtain ⟨logs, hlogs, hrun⟩ :=
    processNextWorkItem_creator_failure c key ns name dashboard e hpre hkey hget hcreate
  have h1 := filter_logs_eq_nil logs hlogs Effect.isFromRawSpec (fun _ _ _ => rfl)
  have h2 := filter_logs_eq_nil logs hlogs Effect.isEvent (fun _ _ _ => rfl)
  have h3 := filter_logs_eq_nil logs hlogs Effect.isUpdateStatus (fun _ _ _ => rfl)
  have h4 := filter_logs_eq_nil logs hlogs Effect.isForget (fun _ _ _ => rfl)
  have h5 := filter_logs_eq_nil logs hlogs Effect.isAddRateLimited (fun _ _ _ => rfl)
  have h6 := filter_logs_eq_nil logs hlogs Effect.isAdd (fun _ _ _ => rfl)
  rw [hrun]
  simp only [List.filter_append, h1, h2, h3, h4, h5, h6]
  simp [List.filter, Effect.isFromRawSpec, Effect.isEvent, Effect.isUpdateStatus,
    Effect.isForget, Effect.isAddRateLimited, Effect.isAdd]

/-- End-to-end scenario B: `dash1` in the cache and `FromRawSpec` failing with
`invalid json`: the status update carries `Error` and `invalid json`. -/
theorem creator_failure_scenario_B :
    (HasPrefix "default/dash1".toList "deletion".toList = false
      ∧ SplitMetaNamespaceKey "default/dash1".toList = some ("default".toList, "dash1".toList)
      ∧ (scenario (some ⟨"invalid json".toList, false⟩)).listerGet "default".toList
          "dash1".toList = .ok dash1
      ∧ (scenario (some ⟨"invalid json".toList, false⟩)).FromRawSpec dash1.Folder dash1.Name
          dash1.Raw = some ⟨"invalid json".toList, false⟩)
    ∧ (processNextWorkItem (scenario (some ⟨"invalid json".toList, false⟩))
        (.str "default/dash1".toList) false).trace.filter Effect.isFromRawSpec
      = [Effect.fromRawSpec "folder1".toList "dash1".toList dash1.Raw]
    ∧ (processNextWorkItem (scenario (some ⟨"invalid json".toList, false⟩))
        (.str "default/dash1".toList) false).trace.filter Effect.isEvent
      = [Effect.event (some dash1) EventTypeWarning WarningNotSynced
          ("could not create dashboard from spec: ".toList ++ "invalid json".toList)]
    ∧ (processNextWorkItem (scenario (some ⟨"invalid json".toList, false⟩))
        (.str "default/dash1".toList) false).trace.filter Effect.isUpdateStatus
      = [Effect.updateStatus "default".toList
          { dash1 with Status := ⟨"Error".toList, "invalid json".toList⟩ }]
    ∧ (processNextWorkItem (scenario (some ⟨"invalid json".toList, false⟩))
        (.str "default/dash1".toList) false).trace.filter Effect.isForget
      = [Effect.forget (.str "default/dash1".toList)]
    ∧ (processNextWorkItem (scenario (some ⟨"invalid json".toList, false⟩))
        (.str "default/dash1".toList) false).trace.filter Effect.isAddRateLimited = []
    ∧ (processNextWorkItem (scenario (some ⟨"invalid json".toList, false⟩))
        (.str "default/dash1".toList) false).trace.filter Effect.isAdd = []
    ∧ (processNextWorkItem (scenario (some ⟨"invalid json".toList, false⟩))
        (.str "default/dash1".toList) false).outcome = .returned true :=
  ⟨⟨by decide, by decide, rfl, by decide⟩,
    creator_failure_is_reported_and_forgotten (scenario (some ⟨"invalid json".toList, false⟩))
      "default/dash1".toList "default".toList "dash1".toList dash1
      ⟨"invalid json".toList, false⟩ (by decide) (by decide) rfl (by decide)⟩

/-- The success path away from the unchecked index: a token that does not
start with `deletion`, that `SplitMetaNamespaceKey` decodes, whose resource is
in the cache and for which `FromRawSpec` succeeds:
`FromRawSpec(Folder, Name, Spec.Raw)` is called once,
one event is recorded, of type normal with reason `Synced`, one status update
is attempted, with status `OK` and message `Synchronized`, `Forget` is called
on the token, and the token is not added again (no `AddRateLimited`, no `Add`),
whatever the status update answers. -/
theorem creator_success_is_reported_and_forgotten (c : Collaborators) (key ns name : Str)
    (dashboard : GrafanaDashboard)
    (hpre : HasPrefix key "deletion".toList = false)
    (hkey : SplitMetaNamespaceKey key = some (ns, name))
    (hget : c.listerGet ns name = .ok dashboard)
    (hcreate : c.FromRawSpec dashboard.Folder dashboard.Name dashboard.Raw = none) :
    (processNextWorkItem c (.str key) false).trace.filter Effect.isFromRawSpec
      = [Effect.fromRawSpec dashboard.Folder dashboard.Name dashboard.Raw]
    ∧ (processNextWorkItem c (.str key) false).trace.filter Effect.isEvent
      = [Effect.event (some dashboard) "Normal".toList "Synced".toList MessageResourceSynced]
    ∧ (processNextWorkItem c (.str key) false).trace.filter Effect.isUpdateStatus
      = [Effect.updateStatus dashboard.Namespace
          { dashboard with Status := ⟨"OK".toList, "Synchronized".toList⟩ }]
    ∧ (processNextWorkItem c (.str key) false).trace.filter Effect.isForget
      = [Effect.forget (.str key)]
    ∧ (processNextWorkItem c (.str key) false).trace.filter Effect.isAddRateLimited = []
    ∧ (processNextWorkItem c (.str key) false).trace.filter Effect.isAdd = []
    ∧ (processNextWorkItem c (.str key) false).outcome = .returned true := by
  obtain ⟨logs, hlogs, hrun⟩ :=
    processNextWorkItem_creator_success c key ns name dashboard hpre hkey hget hcreate
  have h1 := filter_logs_eq_nil logs hlogs Effect.isFromRawSpec (fun _ _ _ => rfl)
  have h2 := filter_logs_eq_nil logs hlogs Effect.isEvent (fun _ _ _ => rfl)
  have h3 := filter_logs_eq_nil logs hlogs Effect.isUpdateStatus (fun _ _ _ => rfl)
  have h4 := filter_logs_eq_nil logs hlogs Effect.isForget (fun _ _ _ => rfl)
  have h5 := filter_logs_eq_nil logs hlogs Effect.isAddRateLimited (fun _ _ _ => rfl)
  have h6 := filter_logs_eq_nil logs hlogs Effect.isAdd (fun _ _ _ => rfl)
  rw [hrun]
  simp only [List.filter_append, h1, h2, h3, h4, h5, h6]
  simp [List.filter, Effect.isFromRawSpec, Effect.isEvent, Effect.isUpdateStatus,
    Effect.isForget, Effect.isAddRateLimited, Effect.isAdd, EventTypeNormal, SuccessSynced]

/-- End-to-end scenario A: `dash1` of namespace `default` and folder
`folder1` in the cache and `FromRawSpec` succeeding: the call is
`FromRawSpec(folder1, dash1, raw)` and the status update carries `OK` and
`Synchronized`. -/
theorem creator_success_scenario_A :
    (HasPrefix "default/dash1".toList "deletion".toList = false
      ∧ SplitMetaNamespaceKey "default/dash1".toList = some ("default".toList, "dash1".toList)
      ∧ (scenario none).listerGet "default".toList "dash1".toList = .ok dash1
      ∧ (scenario none).FromRawSpec dash1.Folder dash1.Name dash1.Raw = none)
    ∧ (processNextWorkItem (scenario none) (.str "default/dash1".toList) false).trace.filter
        Effect.isFromRawSpec
      = [Effect.fromRawSpec "folder1".toList "dash1".toList dash1.Raw]
    ∧ (processNextWorkItem (scenario none) (.str "default/dash1".toList) false).trace.filter
        Effect.isEvent
      = [Effect.event (some dash1) "Normal".toList "Synced".toList MessageResourceSynced]
    ∧ (processNextWorkItem (scenario none) (.str "default/dash1".toList) false).trace.filter
        Effect.isUpdateStatus
      = [Effect.updateStatus "default".toList
          { dash1 with Status := ⟨"OK".toList, "Synchronized".toList⟩ }]
    ∧ (processNextWorkItem (scenario none) (.str "default/dash1".toList) false).trace.filter
        Effect.isForget
      = [Effect.forget (.str "default/dash1".toList)]
    ∧ (processNextWorkItem (scenario none) (.str "default/dash1".toList) false).trace.filter
        Effect.isAddRateLimited = []
    ∧ (processNextWorkItem (scenario none) (.str "default/dash1".toList) false).trace.filter
        Effect.isAdd = []
    ∧ (processNextWorkItem (scenario none) (.str "default/dash1".toList) false).outcome
      = .returned true :=
  ⟨⟨by decide, by decide, rfl, by decide⟩,
    creator_success_is_reported_and_forgotten (scenario none) "default/dash1".toList
      "default".toList "dash1".toList dash1 (by decide) (by decide) rfl (by decide)⟩

/-! ## The deletion path -/

/-- The method `deletionHandler` calls `Delete` once, with the identifier it is
given, and otherwise only reports an error. -/
theorem deletionHandler_calls (c : Collaborators) (uid : Str) :
    (deletionHandler c uid).filter Effect.isDelete = [Effect.delete uid]
    ∧ (deletionHandler c uid).filter Effect.isListerGet = []
    ∧ (deletionHandler c uid).filter Effect.isFromRawSpec = []
    ∧ (deletionHandler c uid).filter Effect.isUpdateStatus = []
    ∧ (deletionHandler c uid).filter Effect.isForget = []
    ∧ (deletionHandler c uid).filter Effect.isAddRateLimited = []
    ∧ (deletionHandler c uid).filter Effect.isAdd = [] := by
  cases h : c.Delete uid <;>
    simp [deletionHandler, h, List.filter, Effect.isDelete, Effect.isListerGet,
      Effect.isFromRawSpec, Effect.isUpdateStatus, Effect.isForget, Effect.isAddRateLimited,
      Effect.isAdd]

/-- C3, counterexample: for the deleted resource named `a:b`, `enqueueDeletion`
adds the token `deletion:a:b`, and `processNextWorkItem` calls `Delete` with
`a`, not with `a:b`. -/
theorem deletion_token_with_colon_not_decoded_back :
    (enqueueDeletion (.dashboard (bareDashboard [] "a:b".toList))).trace
      = [Effect.add (.str "deletion:a:b".toList)]
    ∧ (processNextWorkItem emptyCache (.str "deletion:a:b".toList) false).trace.filter
        Effect.isDelete = [Effect.delete "a".toList] := by
  decide

/-- C3, amended: for an identifier without colon, the token that
`enqueueDeletion` adds is taken by `processNextWorkItem` as a deletion token
(no cache lookup is made) and `Delete` is called once, with exactly that
identifier. -/
theorem deletion_token_roundtrip (c : Collaborators) (deleted : GrafanaDashboard)
    (item : QueueItem)
    (hadd : (enqueueDeletion (.dashboard deleted)).trace = [Effect.add item])
    (huid : ':' ∉ deleted.Name) :
    (processNextWorkItem c item false).trace.filter Effect.isDelete
      = [Effect.delete deleted.Name]
    ∧ (processNextWorkItem c item false).trace.filter Effect.isListerGet = [] := by
  have hitem : item = .str ("deletion:".toList ++ deleted.Name) := by
    simp only [enqueueDeletion, List.cons.injEq, Effect.add.injEq, and_true] at hadd
    exact hadd.symm
  obtain ⟨h1, h2, _⟩ := deletionHandler_calls c deleted.Name
  rw [hitem, processNextWorkItem_deletion_token, takeWhile_ne_of_not_mem _ _ huid]
  simp only [List.filter_append, h1, h2]
  simp [List.filter, Effect.isDelete, Effect.isListerGet]

/-- C3, witness: the amended statement at the deleted resource `dash1`. -/
theorem deletion_token_roundtrip_witness :
    (enqueueDeletion (.dashboard dash1)).trace = [Effect.add (.str "deletion:dash1".toList)]
    ∧ ':' ∉ dash1.Name
    ∧ (processNextWorkItem emptyCache (.str "deletion:dash1".toList) false).trace.filter
        Effect.isDelete = [Effect.delete dash1.Name]
    ∧ (processNextWorkItem emptyCache (.str "deletion:dash1".toList) false).trace.filter
        Effect.isListerGet = [] :=
  ⟨by decide, by decide,
    deletion_token_roundtrip emptyCache dash1 (.str "deletion:dash1".toList) (by decide)
      (by decide)⟩

/-- C7: for every deletion token `deletion:` followed by `uid`, and whatever
`Delete` answers, `processNextWorkItem` calls `Delete` once (with the
identifier up to its first colon), calls `Forget` on the token, returns true,
and calls neither `AddRateLimited`, nor `UpdateStatus`, nor `FromRawSpec`; for
the identifier `abc` the call is `Delete(abc)`. -/
theorem deletion_is_fire_and_forget (c : Collaborators) (uid : Str) :
    (processNextWorkItem c (.str ("deletion:".toList ++ uid)) false).trace.filter
        Effect.isDelete = [Effect.delete (uid.takeWhile (fun ch => decide (ch ≠ ':')))]
    ∧ (processNextWorkItem c (.str ("deletion:".toList ++ uid)) false).trace.filter
        Effect.isForget = [Effect.forget (.str ("deletion:".toList ++ uid))]
    ∧ (processNextWorkItem c (.str ("deletion:".toList ++ uid)) false).trace.filter
        Effect.isAddRateLimited = []
    ∧ (processNextWorkItem c (.str ("deletion:".toList ++ uid)) false).trace.filter
        Effect.isUpdateStatus = []
    ∧ (processNextWorkItem c (.str ("deletion:".toList ++ uid)) false).trace.filter
        Effect.isFromRawSpec = []
    ∧ (processNextWorkItem c (.str ("deletion:".toList ++ uid)) false).outcome = .returned true
    ∧ (processNextWorkItem c (.str "deletion:abc".toList) false).trace.filter
        Effect.isDelete = [Effect.delete "abc".toList] := by
  have key : ∀ u : Str,
      (processNextWorkItem c (.str ("deletion:".toList ++ u)) false).trace.filter
          Effect.isDelete = [Effect.delete (u.takeWhile (fun ch => decide (ch ≠ ':')))] := by
    intro u
    obtain ⟨h1, _⟩ := deletionHandler_calls c (u.takeWhile (fun ch => decide (ch ≠ ':')))
    rw [processNextWorkItem_deletion_token]
    simp only [List.filter_append, h1]
    simp [List.filter, Effect.isDelete]
  obtain ⟨_, _, h3, h4, h5, h6, _⟩ :=
    deletionHandler_calls c (uid.takeWhile (fun ch => decide (ch ≠ ':')))
  refine ⟨key uid, ?_, ?_, ?_, ?_, ?_, ?_⟩
  · rw [processNextWorkItem_deletion_token]
    simp only [List.filter_append, h5]
    simp [List.filter, Effect.isForget]
  · rw [processNextWorkItem_deletion_token]
    simp only [List.filter_append, h6]
    simp [List.filter, Effect.isAddRateLimited]
  · rw [processNextWorkItem_deletion_token]
    simp only [List.filter_append, h4]
    simp [List.filter, Effect.isUpdateStatus]
  · rw [processNextWorkItem_deletion_token]
    simp only [List.filter_append, h3]
    simp [List.filter, Effect.isFromRawSpec]
  · rw [processNextWorkItem_deletion_token]
  · exact key "abc".toList

/-! ## Re-queueing with backoff -/

/-- C4, counterexample: when the cache lookup fails with an error that is not a
not-found error, `syncHandler` returns it and `processNextWorkItem` calls
`AddRateLimited` on the token and does not call `Forget`. -/
theorem lookup_failure_is_requeued :
    (processNextWorkItem brokenCache (.str "ns/name".toList) false).trace
      = [Effect.listerGet "ns".toList "name".toList,
         Effect.addRateLimited (.str "ns/name".toList),
         Effect.done (.str "ns/name".toList),
         Effect.handleError "error syncing 'ns/name': timeout, requeuing".toList] := by
  decide

/-- The whole run of `processNextWorkItem` on a decoded token whose cache
lookup fails with an error that is not a not-found error: the token is added
again with `AddRateLimited`, `Forget` is not called, and the error is reported. -/
theorem processNextWorkItem_lookup_failure (c : Collaborators) (key ns name : Str)
    (err : GoError) (hpre : HasPrefix key "deletion".toList = false)
    (hkey : SplitMetaNamespaceKey key = some (ns, name))
    (hget : c.listerGet ns name = .error err) (hnf : err.notFound = false) :
    processNextWorkItem c (.str key) false
      = ⟨[Effect.listerGet ns name, Effect.addRateLimited (.str key), Effect.done (.str key),
          Effect.handleError
            ("error syncing '".toList ++ key ++ "': ".toList ++ err.text
              ++ ", requeuing".toList)],
         .returned true⟩ := by
  simp only [processNextWorkItem, hpre, syncHandler, hkey, hget, hnf, Bool.false_eq_true,
    if_false]
  rfl

/-- C4, amended: `processNextWorkItem` calls `AddRateLimited` in one case only,
and then on the token it took off the queue: the queue is not shut down, the
token is a string that does not start with `deletion`, it is decoded by
`SplitMetaNamespaceKey`, and the cache lookup fails with an error that is not a
not-found error.  In that case the token is re-queued once and not forgotten:
`AddRateLimited` is called once, `Forget` is not called, and the step returns
true.  A failure of `FromRawSpec`, of `Delete` or of the status update, and a
not-found lookup, never lead to `AddRateLimited`. -/
theorem addRateLimited_only_on_lookup_failure (c : Collaborators) (obj : QueueItem)
    (shutdown : Bool) (item : QueueItem) :
    (Effect.addRateLimited item ∈ (processNextWorkItem c obj shutdown).trace ↔
      shutdown = false ∧
        ∃ key ns name err, obj = .str key ∧ item = .str key
          ∧ HasPrefix key "deletion".toList = false
          ∧ SplitMetaNamespaceKey key = some (ns, name)
          ∧ c.listerGet ns name = .error err ∧ err.notFound = false)
    ∧ (Effect.addRateLimited item ∈ (processNextWorkItem c obj shutdown).trace →
        (processNextWorkItem c obj shutdown).trace.filter Effect.isAddRateLimited
          = [Effect.addRateLimited obj]
        ∧ (processNextWorkItem c obj shutdown).trace.filter Effect.isForget = []
        ∧ (processNextWorkItem c obj shutdown).outcome = .returned true) := by
  have hiff : Effect.addRateLimited item ∈ (processNextWorkItem c obj shutdown).trace ↔
      shutdown = false ∧
        ∃ key ns name err, obj = .str key ∧ item = .str key
          ∧ HasPrefix key "deletion".toList = false
          ∧ SplitMetaNamespaceKey key = some (ns, name)
          ∧ c.listerGet ns name = .error err ∧ err.notFound = false := by
    cases shutdown with
    | true => simp [processNextWorkItem]
    | false =>
      cases obj with
      | other goSyntax => simp [processNextWorkItem]
      | str key =>
        cases hpre : HasPrefix key "deletion".toList with
        | true =>
          have hno : Effect.addRateLimited item ∉
              (processNextWorkItem c (.str key) false).trace := by
            simp only [processNextWorkItem, hpre, Bool.false_eq_true, if_false, if_true]
            cases hparts : (Split key ':')[1]? with
            | none => simp
            | some uid => cases hd : c.Delete uid <;> simp [deletionHandler, hd]
          constructor
          · intro h
            exact absurd h hno
          · rintro ⟨_, key2, ns, name, err, hobj, _, hpre2, _⟩
            cases hobj
            rw [hpre] at hpre2
            exact absurd hpre2 (by simp)
        | false =>
          have hsync : Effect.addRateLimited item ∉ (syncHandler c key).trace := by
            intro hmem
            have := (syncHandler_calls c key _ hmem).1
            simp [Effect.isAddRateLimited] at this
          constructor
          · intro h
            rw [processNextWorkItem_sync c key hpre] at h
            rcases ho : (syncHandler c key).outcome with (_ | err) | p
            · simp [ho, hsync] at h
            · obtain ⟨ns, name, hkey, hget, hnf⟩ := (syncHandler_error_iff c key err).1 ho
              simp [ho, hsync] at h
              exact ⟨rfl, key, ns, name, err, rfl, h, hpre, hkey, hget, hnf⟩
            · simp [ho, hsync] at h
          · rintro ⟨_, key2, ns, name, err, hobj, hitem, _, hkey, hget, hnf⟩
            cases hobj
            rw [processNextWorkItem_lookup_failure c key ns name err hpre hkey hget hnf, hitem]
            simp
  refine ⟨hiff, ?_⟩
  intro h
  obtain ⟨hs, key, ns, name, err, hobj, _, hpre, hkey, hget, hnf⟩ := hiff.1 h
  subst hs hobj
  rw [processNextWorkItem_lookup_failure c key ns name err hpre hkey hget hnf]
  simp [List.filter, Effect.isAddRateLimited, Effect.isForget]

/-- C4, witness: with a cache whose lookup times out, the token `ns/name` is
added again with `AddRateLimited`, once, and is not forgotten. -/
theorem addRateLimited_only_on_lookup_failure_witness :
    Effect.addRateLimited (.str "ns/name".toList)
        ∈ (processNextWorkItem brokenCache (.str "ns/name".toList) false).trace
    ∧ (processNextWorkItem brokenCache (.str "ns/name".toList) false).trace.filter
        Effect.isAddRateLimited = [Effect.addRateLimited (.str "ns/name".toList)]
    ∧ (processNextWorkItem brokenCache (.str "ns/name".toList) false).trace.filter
        Effect.isForget = []
    ∧ (processNextWorkItem brokenCache (.str "ns/name".toList) false).outcome
      = .returned true :=
  ⟨by decide,
    (addRateLimited_only_on_lookup_failure brokenCache (.str "ns/name".toList) false
      (.str "ns/name".toList)).2 (by decide)⟩

/-! ## The update handler -/

/-- C8: the update handler adds nothing to the queue when the old and the new
dashboard carry the same ResourceVersion, and adds exactly one token, the
reconcile token of the new dashboard (the one `enqueueDashboard` adds for it:
`namespace/name`, or `name` alone), when their ResourceVersions differ. -/
theorem update_handler_adds_on_new_version (old new : GrafanaDashboard) :
    (new.ResourceVersion = old.ResourceVersion →
      (UpdateFunc (.dashboard old) (.dashboard new)).trace = [])
    ∧ (new.ResourceVersion ≠ old.ResourceVersion →
      (UpdateFunc (.dashboard old) (.dashboard new)).trace
          = [Effect.add (.str (if new.Namespace.length > 0
              then new.Namespace ++ "/".toList ++ new.Name else new.Name))]
        ∧ UpdateFunc (.dashboard old) (.dashboard new) = enqueueDashboard (.dashboard new)) := by
  constructor
  · intro h
    simp [UpdateFunc, h]
  · intro h
    have e : UpdateFunc (.dashboard old) (.dashboard new) = enqueueDashboard (.dashboard new) := by
      simp only [UpdateFunc, h, if_false]
    rw [e, enqueueDashboard_dashboard]
    exact ⟨rfl, rfl⟩

/-- C8, witness: `dash1` against itself adds nothing; `dash1` with a new
ResourceVersion adds the one token `default/dash1`. -/
theorem update_handler_adds_on_new_version_witness :
    (UpdateFunc (.dashboard dash1) (.dashboard dash1)).trace = []
    ∧ (UpdateFunc (.dashboard dash1)
        (.dashboard { dash1 with ResourceVersion := "2".toList })).trace
      = [Effect.add (.str "default/dash1".toList)] :=
  ⟨(update_handler_adds_on_new_version dash1 dash1).1 rfl,
    ((update_handler_adds_on_new_version dash1
      { dash1 with ResourceVersion := "2".toList }).2 (by decide)).1⟩

/-! ## Shutdown and the unchecked index -/

/-- When `Get` reports shutdown, `processNextWorkItem` returns false and calls
no collaborator. -/
theorem processNextWorkItem_shutdown (c : Collaborators) (obj : QueueItem) :
    processNextWorkItem c obj true = ⟨[], .returned false⟩ := by
  simp [processNextWorkItem]

/-- Without shutdown, `processNextWorkItem` returns true, except in two cases
where it panics: on a string token that starts with `deletion` and holds no
colon (the index `parts[1]`), and on a decoded token whose lookup answers
not-found when the recorder panics on the nil dashboard. -/
theorem processNextWorkItem_outcome (c : Collaborators) (obj : QueueItem) :
    (processNextWorkItem c obj false).outcome = .returned true
    ∨ (∃ key, obj = .str key ∧ HasPrefix key "deletion".toList = true
        ∧ (Split key ':').length = 1
        ∧ processNextWorkItem c obj false
          = ⟨[Effect.done obj], .panicked (.indexOutOfRange 1 1)⟩)
    ∨ (∃ key ns name err, obj = .str key ∧ HasPrefix key "deletion".toList = false
        ∧ SplitMetaNamespaceKey key = some (ns, name)
        ∧ c.listerGet ns name = .error err ∧ err.notFound = true
        ∧ c.EventPanicsOnNil = true
        ∧ (processNextWorkItem c obj false).outcome = .panicked .nilDereference) := by
  cases obj with
  | other goSyntax => left; simp [processNextWorkItem]
  | str key =>
    cases hpre : HasPrefix key "deletion".toList with
    | false =>
      rcases ho : (syncHandler c key).outcome with (_ | err) | p
      · left
        rw [processNextWorkItem_sync c key hpre, ho]
      · left
        rw [processNextWorkItem_sync c key hpre, ho]
      · right
        right
        obtain ⟨hp, hev, ns, name, err, hkey, hget, hnf⟩ :=
          (syncHandler_panics_iff c key p).1 ho
        refine ⟨key, ns, name, err, rfl, hpre, hkey, hget, hnf, hev, ?_⟩
        rw [processNextWorkItem_sync c key hpre, ho, hp]
    | true =>
      cases hparts : (Split key ':')[1]? with
      | some uid =>
        left
        simp only [processNextWorkItem, hpre, hparts, Bool.false_eq_true, if_false, if_true]
      | none =>
        right
        left
        have hlen : (Split key ':').length = 1 := by
          have h1 : (Split key ':').length ≤ 1 := by simpa using hparts
          have h2 : Split key ':' ≠ [] := Split_ne_nil key ':'
          have h3 : 0 < (Split key ':').length := List.length_pos.2 h2
          omega
        refine ⟨key, rfl, hpre, hlen, ?_⟩
        simp only [processNextWorkItem, hpre, hparts, hlen, Bool.false_eq_true, if_false,
          if_true]

/-- The loop of `runWorker` ends, without any call, at the first answer of
`Get` that reports shutdown. -/
theorem runWorker_stops_on_shutdown (c : Collaborators) (obj : QueueItem)
    (rest : List (QueueItem × Bool)) : runWorker c ((obj, true) :: rest) = [] := by
  simp [runWorker, processNextWorkItem]

/-- C5, failing input: the dashboard `a` of namespace `deletion` is in the
cache and `FromRawSpec` would fail with `invalid json`.  Its reconcile token is
`deletion/a`, which `SplitMetaNamespaceKey` decodes; `processNextWorkItem`
takes the deletion branch on it and panics on the index `parts[1]`:
`FromRawSpec` is not called, no event is recorded, no status update is
attempted and `Forget` is not called. -/
theorem creator_failure_not_reported_in_deletion_namespace :
    (enqueueDashboard (.dashboard dashInDeletionNamespace)).trace
      = [Effect.add (.str "deletion/a".toList)]
    ∧ SplitMetaNamespaceKey "deletion/a".toList = some ("deletion".toList, "a".toList)
    ∧ (deletionNamespace (some ⟨"invalid json".toList, false⟩)).listerGet "deletion".toList
        "a".toList = .ok dashInDeletionNamespace
    ∧ (deletionNamespace (some ⟨"invalid json".toList, false⟩)).FromRawSpec
        "folder1".toList "a".toList dashInDeletionNamespace.Raw
      = some ⟨"invalid json".toList, false⟩
    ∧ processNextWorkItem (deletionNamespace (some ⟨"invalid json".toList, false⟩))
        (.str "deletion/a".toList) false
      = ⟨[Effect.done (.str "deletion/a".toList)], .panicked (.indexOutOfRange 1 1)⟩
    ∧ (processNextWorkItem (deletionNamespace (some ⟨"invalid json".toList, false⟩))
        (.str "deletion/a".toList) false).trace.filter Effect.isFromRawSpec = []
    ∧ (processNextWorkItem (deletionNamespace (some ⟨"invalid json".toList, false⟩))
        (.str "deletion/a".toList) false).trace.filter Effect.isEvent = []
    ∧ (processNextWorkItem (deletionNamespace (some ⟨"invalid json".toList, false⟩))
        (.str "deletion/a".toList) false).trace.filter Effect.isUpdateStatus = []
    ∧ (processNextWorkItem (deletionNamespace (some ⟨"invalid json".toList, false⟩))
        (.str "deletion/a".toList) false).trace.filter Effect.isForget = [] :=
  ⟨by decide, by decide, rfl, by decide, by decide, by decide, by decide, by decide,
    by decide⟩

/-- C6, failing input: the dashboard `a` of namespace `deletion` is in the
cache and `FromRawSpec` would succeed.  Its reconcile token is `deletion/a`,
which `SplitMetaNamespaceKey` decodes; `processNextWorkItem` takes the deletion
branch on it and panics on the index `parts[1]`: `FromRawSpec` is not called,
no event is recorded, no status update is attempted and `Forget` is not
called. -/
theorem creator_success_not_reported_in_deletion_namespace :
    (enqueueDashboard (.dashboard dashInDeletionNamespace)).trace
      = [Effect.add (.str "deletion/a".toList)]
    ∧ SplitMetaNamespaceKey "deletion/a".toList = some ("deletion".toList, "a".toList)
    ∧ (deletionNamespace none).listerGet "deletion".toList "a".toList
      = .ok dashInDeletionNamespace
    ∧ (deletionNamespace none).FromRawSpec "folder1".toList "a".toList
        dashInDeletionNamespace.Raw = none
    ∧ processNextWorkItem (deletionNamespace none) (.str "deletion/a".toList) false
      = ⟨[Effect.done (.str "deletion/a".toList)], .panicked (.indexOutOfRange 1 1)⟩
    ∧ (processNextWorkItem (deletionNamespace none) (.str "deletion/a".toList) false).trace.filter
        Effect.isFromRawSpec = []
    ∧ (processNextWorkItem (deletionNamespace none) (.str "deletion/a".toList) false).trace.filter
        Effect.isEvent = []
    ∧ (processNextWorkItem (deletionNamespace none) (.str "deletion/a".toList) false).trace.filter
        Effect.isUpdateStatus = []
    ∧ (processNextWorkItem (deletionNamespace none) (.str "deletion/a".toList) false).trace.filter
        Effect.isForget = [] :=
  ⟨by decide, by decide, rfl, by decide, by decide, by decide, by decide, by decide,
    by decide⟩

/-- C9, failing input: `enqueueDashboard` adds the token `deletion/a` for the
dashboard `a` of namespace `deletion`; `Get` hands it out without shutdown, and
`processNextWorkItem` does not return true: it panics on the index `parts[1]`. -/
theorem processNextWorkItem_does_not_return_on_deletion_namespace :
    (enqueueDashboard (.dashboard (bareDashboard "deletion".toList "a".toList))).trace
      = [Effect.add (.str "deletion/a".toList)]
    ∧ (processNextWorkItem emptyCache (.str "deletion/a".toList) false).outcome
      = .panicked (.indexOutOfRange 1 1)
    ∧ (processNextWorkItem emptyCache (.str "deletion/a".toList) false).outcome
      ≠ .returned true := by
  decide

/-- C10, failing input: the token `deletion/a/b` starts with `deletion` and
holds no colon, so its split on the colon has one element and `parts[1]` is out
of range: `processNextWorkItem` panics, only the deferred `Done` is called, and
neither `Forget` nor any handler. -/
theorem parts_index_out_of_range :
    HasPrefix "deletion/a/b".toList "deletion".toList = true
    ∧ Split "deletion/a/b".toList ':' = ["deletion/a/b".toList]
    ∧ (Split "deletion/a/b".toList ':')[1]? = none
    ∧ processNextWorkItem emptyCache (.str "deletion/a/b".toList) false
      = ⟨[Effect.done (.str "deletion/a/b".toList)], .panicked (.indexOutOfRange 1 1)⟩ := by
  decide

end Dark
